import Mathlib

/-!
Verification development for the Actionbook repository.

The file embeds, as Lean definitions, the parts of the code base that the
checked properties speak about:

* the capability data model and accumulator (SiteCapability, PageCapability,
  ElementCapability, register_element / set_page_context upsert semantics);
* the agent-loop orchestration (turn limit, result object);
* the persistence round trip for SiteCapability documents;
* the browser tool surface of the rust-learner agent (navigate,
  getPageContent, click, getVersionList, pageInfo);
* the domain-key normalization of playbook-record.ts;
* the SDK client dispatch (searchActions / getActionById overloads);
* the releases parser (parseFeatureItem).

Definitions marked "Modelled from the spec" embed components whose
implementation (ActionBuilder and its accumulator / persistence layer) is not
among the inspected source files; they follow the specification text.  All
other definitions are translated directly from the TypeScript sources.
-/

namespace Actionbook

/-! ## Association-list maps

The capability document keeps its `pages`, `elements` and `global_elements`
mappings as key/value collections.  We model them as association lists with a
first-occurrence lookup and an in-place upsert. -/

/-- Lookup of the first entry with the given key. -/
def lookupKey {β : Type} (k : String) : List (String × β) → Option β
  | [] => none
  | (k', v) :: rest => if k' = k then some v else lookupKey k rest

/-- Number of entries carrying the given key. -/
def countKey {β : Type} (k : String) (m : List (String × β)) : Nat :=
  (m.filter (fun p => p.1 == k)).length

/-- Insert-or-update by key: the first entry with key `k` is overwritten with
`v`; if no entry has key `k`, a fresh entry is appended. -/
def upsert {β : Type} (k : String) (v : β) : List (String × β) → List (String × β)
  | [] => [(k, v)]
  | (k', v') :: rest => if k' = k then (k, v) :: rest else (k', v') :: upsert k v rest

theorem lookupKey_upsert_self {β : Type} (k : String) (v : β) (m : List (String × β)) :
    lookupKey k (upsert k v m) = some v := by
  induction m with
  | nil => simp [upsert, lookupKey]
  | cons p rest ih =>
    obtain ⟨k', v'⟩ := p
    by_cases h : k' = k
    · simp [upsert, lookupKey, h]
    · simp [upsert, lookupKey, h, ih]

theorem countKey_upsert_self {β : Type} (k : String) (v : β) (m : List (String × β)) :
    countKey k (upsert k v m) = max 1 (countKey k m) := by
  induction m with
  | nil => simp [upsert, countKey]
  | cons p rest ih =>
    obtain ⟨k', v'⟩ := p
    by_cases h : k' = k
    · subst h
      simp [upsert, countKey, List.filter]
    · have hb : (k' == k) = false := by
        simp [h]
      simp [upsert, countKey, List.filter, h, hb] at ih ⊢
      exact ih

/-! ## Capability data model

Modelled from the spec: the SiteCapability / PageCapability /
ElementCapability document tree maintained by the capability accumulator
(the ActionBuilder implementation itself is not among the inspected files). -/

/-- Fixed module taxonomy classifying a page region. -/
inductive Module where
  | header
  | footer
  | sidebar
  | navibar
  | main
  | modal
  | breadcrumb
  | tab
  | unknown
deriving DecidableEq, Repr

/-- The nine tags of the fixed taxonomy. -/
def Module.taxonomy : List Module :=
  [.header, .footer, .sidebar, .navibar, .main, .modal, .breadcrumb, .tab, .unknown]

theorem Module.mem_taxonomy (m : Module) : m ∈ Module.taxonomy := by
  cases m <;> simp [Module.taxonomy]

/-- One recorded interactive element. -/
structure ElementCapability where
  description : String
  element_type : String
  allow_methods : List String
  module : Module
  selector : String
deriving DecidableEq, Repr

/-- One page template's element map. -/
structure PageCapability where
  page_type : String
  url_pattern : Option String
  elements : List (String × ElementCapability)
deriving DecidableEq, Repr

/-- Root capability document for one domain. -/
structure SiteCapability where
  domain : String
  pages : List (String × PageCapability)
  global_elements : List (String × ElementCapability)
deriving DecidableEq, Repr

/-! ## Capability accumulator

Modelled from the spec: consumes `set_page_context` and `register_element`
events in emission order; `register_element` upserts into the active page's
element scope, a call before any `set_page_context` defaults to the sentinel
"unclassified" page scope, and an omitted module defaults to `unknown`. -/

/-- Arguments of one register_element call. -/
structure RegisterArgs where
  element_id : String
  description : String
  element_type : String
  allow_methods : List String
  module : Option Module
  selector : String
deriving DecidableEq, Repr

/-- The element stored by a register_element call: all supplied fields, with
an omitted module defaulting to `unknown`. -/
def RegisterArgs.toElement (a : RegisterArgs) : ElementCapability :=
  { description := a.description
    element_type := a.element_type
    allow_methods := a.allow_methods
    module := a.module.getD Module.unknown
    selector := a.selector }

/-- In-session accumulator state: the active page scope and the document. -/
structure SessionState where
  activePage : Option String
  caps : SiteCapability
deriving DecidableEq, Repr

/-- Sentinel page scope used for register_element calls that arrive before
any set_page_context. -/
def unclassifiedPage : String := "unclassified"

/-- A fresh session for a domain: no active page, empty document. -/
def freshSession (domain : String) : SessionState :=
  { activePage := none
    caps := { domain := domain, pages := [], global_elements := [] } }

/-- Modelled from the spec: set_page_context creates an empty PageCapability
when the page type is new, otherwise selects the existing one; either way the
page becomes the active scope. -/
def setPageContext (s : SessionState) (page_type : String) (_descr : String) : SessionState :=
  let pages :=
    match lookupKey page_type s.caps.pages with
    | some _ => s.caps.pages
    | none =>
        s.caps.pages ++ [(page_type, { page_type := page_type, url_pattern := none, elements := [] })]
  { activePage := some page_type, caps := { s.caps with pages := pages } }

/-- Modelled from the spec: register_element resolves the target scope (the
active page, or the "unclassified" sentinel when none is set) and upserts the
element by id within that scope, overwriting all provided fields. -/
def registerElement (s : SessionState) (a : RegisterArgs) : SessionState :=
  let target := s.activePage.getD unclassifiedPage
  let page :=
    match lookupKey target s.caps.pages with
    | some p => p
    | none => { page_type := target, url_pattern := none, elements := [] }
  let page' := { page with elements := upsert a.element_id a.toElement page.elements }
  { s with caps := { s.caps with pages := upsert target page' s.caps.pages } }

/-- All capability-affecting tool events (other tools leave the document). -/
inductive ToolEvent where
  | setPage (page_type : String) (descr : String)
  | register (args : RegisterArgs)
  | other
deriving Repr

/-- One accumulator step per tool event. -/
def stepEvent (s : SessionState) : ToolEvent → SessionState
  | .setPage p d => setPageContext s p d
  | .register a => registerElement s a
  | .other => s

/-- Fold a list of tool events over the session state, in emission order. -/
def runEvents (s : SessionState) (es : List ToolEvent) : SessionState :=
  es.foldl stepEvent s

/-- The element scope that register_element currently targets. -/
def scopeElements (s : SessionState) : List (String × ElementCapability) :=
  match lookupKey (s.activePage.getD unclassifiedPage) s.caps.pages with
  | some p => p.elements
  | none => []

theorem activePage_registerElement (s : SessionState) (a : RegisterArgs) :
    (registerElement s a).activePage = s.activePage := rfl

theorem scopeElements_registerElement (s : SessionState) (a : RegisterArgs) :
    scopeElements (registerElement s a) = upsert a.element_id a.toElement (scopeElements s) := by
  unfold scopeElements registerElement
  cases h : lookupKey (s.activePage.getD unclassifiedPage) s.caps.pages with
  | none => simp [h, lookupKey_upsert_self]
  | some p => simp [h, lookupKey_upsert_self]

theorem scopeElements_fold_register (calls : List RegisterArgs) (s0 : SessionState) :
    scopeElements (calls.foldl registerElement s0) =
      calls.foldl (fun m a => upsert a.element_id a.toElement m) (scopeElements s0) := by
  induction calls generalizing s0 with
  | nil => rfl
  | cons a rest ih =>
    simp only [List.foldl_cons]
    rw [ih, scopeElements_registerElement]

theorem fold_upsert_map_key (k : String) (calls : List RegisterArgs)
    (hall : ∀ a ∈ calls, a.element_id = k) (m : List (String × ElementCapability)) :
    calls.foldl (fun m a => upsert a.element_id a.toElement m) m =
      (calls.map RegisterArgs.toElement).foldl (fun m v => upsert k v m) m := by
  induction calls generalizing m with
  | nil => rfl
  | cons a rest ih =>
    have ha : a.element_id = k := hall a (List.mem_cons_self a rest)
    simp only [List.foldl_cons, List.map_cons, ha]
    exact ih (fun b hb => hall b (List.mem_cons_of_mem a hb)) _

theorem countKey_fold_upsert_one {β : Type} (k : String) (vs : List β)
    (m : List (String × β)) (h : countKey k m = 1) :
    countKey k (vs.foldl (fun m v => upsert k v m) m) = 1 := by
  induction vs generalizing m with
  | nil => exact h
  | cons v rest ih =>
    simp only [List.foldl_cons]
    exact ih _ (by rw [countKey_upsert_self, h]; simp)

theorem lookupKey_fold_upsert_last {β : Type} (k : String) (vs : List β)
    (hne : vs ≠ []) (m : List (String × β)) :
    lookupKey k (vs.foldl (fun m v => upsert k v m) m) = vs.getLast? := by
  induction vs generalizing m with
  | nil => exact absurd rfl hne
  | cons v rest ih =>
    cases rest with
    | nil => simp [lookupKey_upsert_self]
    | cons w tl =>
      have h2 := ih (by simp) (upsert k v m)
      simp only [List.foldl_cons] at h2 ⊢
      rw [List.getLast?_cons_cons]
      exact h2

/-! ## The session orchestrator

Modelled from the spec: the agent loop drives a bounded conversation with a
tool-calling model backend, executes the proposed tool events against the
accumulator, stops at completion, a fatal error, or the turn limit, and on
every termination path assembles the result object. -/

/-- One turn's response from the tool-calling model backend. -/
inductive ModelStep where
  | toolCalls (events : List ToolEvent) (tokensIn tokensOut : Nat)
  | finish (text : String) (tokensIn tokensOut : Nat)
  | fatal (err : String)

/-- Termination kinds of the agent loop. -/
inductive TermKind where
  | completed
  | turnLimitReached
  | failed
deriving DecidableEq, Repr

/-- Token usage counters of the result object. -/
structure TokenUsage where
  input : Nat
  output : Nat
  total : Nat
deriving DecidableEq, Repr

/-- Raw outcome of the agent loop. -/
structure LoopOutcome where
  kind : TermKind
  turns : Nat
  tokensIn : Nat
  tokensOut : Nat
  final : SessionState
deriving Repr

/-- Modelled from the spec: the orchestrator loop.  Each turn consults the
backend; tool calls are folded into the accumulator and the loop continues,
a final text completes the session, a transport/browser crash fails it, and
exhausted fuel reports the turn limit.  The accumulated state is carried out
on every path. -/
def runLoop (backend : Nat → ModelStep) (s : SessionState) (turn tin tout : Nat) :
    Nat → LoopOutcome
  | 0 => ⟨.turnLimitReached, turn, tin, tout, s⟩
  | fuel + 1 =>
    match backend turn with
    | .fatal _ => ⟨.failed, turn + 1, tin, tout, s⟩
    | .finish _ ti tu => ⟨.completed, turn + 1, tin + ti, tout + tu, s⟩
    | .toolCalls es ti tu => runLoop backend (runEvents s es) (turn + 1) (tin + ti) (tout + tu) fuel

/-- Result object returned to the caller. -/
structure BuildResult where
  success : Bool
  savedPath : String
  turns : Nat
  tokens : TokenUsage
  totalDuration : Nat
  siteCapability : SiteCapability
  termination : TermKind
deriving Repr

/-- Modelled from the spec: run a session with a configured turn limit and
assemble the result object from the loop outcome, whichever way it ended. -/
def runSession (backend : Nat → ModelStep) (maxTurns : Nat) (savedPath : String)
    (duration : Nat) (init : SessionState) : BuildResult :=
  let out := runLoop backend init 0 0 0 maxTurns
  { success := decide (out.kind = TermKind.completed)
    savedPath := savedPath
    turns := out.turns
    tokens := { input := out.tokensIn, output := out.tokensOut, total := out.tokensIn + out.tokensOut }
    totalDuration := duration
    siteCapability := out.final.caps
    termination := out.kind }

theorem runLoop_turns_le (backend : Nat → ModelStep) :
    ∀ (fuel : Nat) (s : SessionState) (turn tin tout : Nat),
      (runLoop backend s turn tin tout fuel).turns ≤ turn + fuel := by
  intro fuel
  induction fuel with
  | zero => intro s turn tin tout; simp [runLoop]
  | succ n ih =>
    intro s turn tin tout
    simp only [runLoop]
    cases backend turn with
    | fatal e => simp
    | finish t ti tu => simp
    | toolCalls es ti tu =>
      have h := ih (runEvents s es) (turn + 1) (tin + ti) (tout + tu)
      show (runLoop backend (runEvents s es) (turn + 1) (tin + ti) (tout + tu) n).turns ≤
        turn + (n + 1)
      omega

/-! ## Persistence layer

Modelled from the spec: the persistence target's only contract is to
serialize a SiteCapability as a structured document keyed by domain, readable
by the same format on reload.  We embed the structured document as a
JSON-like tree and give the encoder and the decoder. -/

/-- Structured on-disk document tree. -/
inductive Doc where
  | str (s : String)
  | arr (items : List Doc)
  | obj (fields : List (String × Doc))

/-- Read a string leaf. -/
def docToStr : Doc → Option String
  | .str s => some s
  | _ => none

/-- Read a string leaf out of an optional field. -/
def getStr (d : Option Doc) : Option String :=
  d.bind docToStr

/-- Decode every entry of an array, failing if any entry fails. -/
def decodeList {α : Type} (dec : Doc → Option α) : List Doc → Option (List α)
  | [] => some []
  | d :: ds =>
    match dec d, decodeList dec ds with
    | some a, some as => some (a :: as)
    | _, _ => none

/-- Decode every value of an object, failing if any value fails. -/
def decodePairs {α : Type} (dec : Doc → Option α) :
    List (String × Doc) → Option (List (String × α))
  | [] => some []
  | (k, d) :: rest =>
    match dec d, decodePairs dec rest with
    | some a, some as => some ((k, a) :: as)
    | _, _ => none

theorem decodeList_map {α : Type} (dec : Doc → Option α) (enc : α → Doc)
    (h : ∀ a, dec (enc a) = some a) (l : List α) :
    decodeList dec (l.map enc) = some l := by
  induction l with
  | nil => rfl
  | cons a rest ih => simp [decodeList, h, ih]

theorem decodePairs_map {α : Type} (dec : Doc → Option α) (enc : α → Doc)
    (h : ∀ a, dec (enc a) = some a) (l : List (String × α)) :
    decodePairs dec (l.map (fun p => (p.1, enc p.2))) = some l := by
  induction l with
  | nil => rfl
  | cons p rest ih =>
    obtain ⟨k, a⟩ := p
    simp [decodePairs, h, ih]

/-- Serialized name of a module tag. -/
def Module.toName : Module → String
  | .header => "header"
  | .footer => "footer"
  | .sidebar => "sidebar"
  | .navibar => "navibar"
  | .main => "main"
  | .modal => "modal"
  | .breadcrumb => "breadcrumb"
  | .tab => "tab"
  | .unknown => "unknown"

/-- Parse a module tag back from its serialized name. -/
def Module.ofName : String → Option Module
  | "header" => some .header
  | "footer" => some .footer
  | "sidebar" => some .sidebar
  | "navibar" => some .navibar
  | "main" => some .main
  | "modal" => some .modal
  | "breadcrumb" => some .breadcrumb
  | "tab" => some .tab
  | "unknown" => some .unknown
  | _ => none

theorem Module.ofName_toName (m : Module) : Module.ofName m.toName = some m := by
  cases m <;> rfl

/-- Encode an optional string field. -/
def encodeOptStr : Option String → Doc
  | none => .arr []
  | some s => .arr [.str s]

/-- Decode an optional string field. -/
def docToOptStr : Doc → Option (Option String)
  | .arr [] => some none
  | .arr [.str s] => some (some s)
  | _ => none

theorem docToOptStr_encodeOptStr (o : Option String) :
    docToOptStr (encodeOptStr o) = some o := by
  cases o <;> rfl

/-- Serialize one element. -/
def encodeElement (e : ElementCapability) : Doc :=
  .obj [("description", .str e.description),
        ("element_type", .str e.element_type),
        ("allow_methods", .arr (e.allow_methods.map Doc.str)),
        ("module", .str e.module.toName),
        ("selector", .str e.selector)]

/-- Read a string array field. -/
def docToStrList : Doc → Option (List String)
  | .arr xs => decodeList docToStr xs
  | _ => none

/-- Parse one element. -/
def decodeElement : Doc → Option ElementCapability
  | .obj fs =>
    match getStr (lookupKey "description" fs),
          getStr (lookupKey "element_type" fs),
          (lookupKey "allow_methods" fs).bind docToStrList,
          (getStr (lookupKey "module" fs)).bind Module.ofName,
          getStr (lookupKey "selector" fs) with
    | some de, some ty, some am, some mo, some sel =>
        some { description := de, element_type := ty, allow_methods := am,
               module := mo, selector := sel }
    | _, _, _, _, _ => none
  | _ => none

theorem decodeElement_encodeElement (e : ElementCapability) :
    decodeElement (encodeElement e) = some e := by
  have hs : ∀ s : String, docToStr (Doc.str s) = some s := fun s => rfl
  simp [encodeElement, decodeElement, lookupKey, getStr, docToStr, docToStrList,
        decodeList_map docToStr Doc.str hs, Module.ofName_toName]

/-- Serialize an element map. -/
def encodeElems (l : List (String × ElementCapability)) : Doc :=
  .obj (l.map (fun p => (p.1, encodeElement p.2)))

/-- Parse an element map. -/
def docToElems : Doc → Option (List (String × ElementCapability))
  | .obj fs => decodePairs decodeElement fs
  | _ => none

theorem docToElems_encodeElems (l : List (String × ElementCapability)) :
    docToElems (encodeElems l) = some l := by
  simp [encodeElems, docToElems, decodePairs_map decodeElement encodeElement
        decodeElement_encodeElement]

/-- Serialize one page. -/
def encodePage (p : PageCapability) : Doc :=
  .obj [("page_type", .str p.page_type),
        ("url_pattern", encodeOptStr p.url_pattern),
        ("elements", encodeElems p.elements)]

/-- Parse one page. -/
def decodePage : Doc → Option PageCapability
  | .obj fs =>
    match getStr (lookupKey "page_type" fs),
          (lookupKey "url_pattern" fs).bind docToOptStr,
          (lookupKey "elements" fs).bind docToElems with
    | some pt, some up, some el =>
        some { page_type := pt, url_pattern := up, elements := el }
    | _, _, _ => none
  | _ => none

theorem decodePage_encodePage (p : PageCapability) :
    decodePage (encodePage p) = some p := by
  simp [encodePage, decodePage, lookupKey, getStr, docToStr,
        docToOptStr_encodeOptStr, docToElems_encodeElems]

/-- Serialize a SiteCapability as a structured document keyed by domain. -/
def encodeSite (c : SiteCapability) : Doc :=
  .obj [("domain", .str c.domain),
        ("pages", .obj (c.pages.map (fun p => (p.1, encodePage p.2)))),
        ("global_elements", encodeElems c.global_elements)]

/-- Parse a page map. -/
def docToPages : Doc → Option (List (String × PageCapability))
  | .obj fs => decodePairs decodePage fs
  | _ => none

/-- Reload a SiteCapability from its persisted document. -/
def decodeSite : Doc → Option SiteCapability
  | .obj fs =>
    match getStr (lookupKey "domain" fs),
          (lookupKey "pages" fs).bind docToPages,
          (lookupKey "global_elements" fs).bind docToElems with
    | some d, some ps, some ge =>
        some { domain := d, pages := ps, global_elements := ge }
    | _, _, _ => none
  | _ => none

/-! ## Browser tool surface (src/unnamed/part_002)

Each tool's execute wraps the underlying browser action in a try/catch and
returns a structured result tagged with a success flag.  The browser engine
is external: its outcome is a parameter, with a thrown exception delivered as
the error message the catch block would extract. -/

/-- One list item of the page content extraction: text plus optional link. -/
structure ContentItem where
  text : String
  href : Option String
deriving DecidableEq, Repr

/-- One category of the page content extraction. -/
structure ContentCategory where
  name : String
  items : List ContentItem
deriving DecidableEq, Repr

/-- Structured content extracted from a releases.rs page. -/
structure PageContent where
  version : String
  releaseInfo : String
  isStable : Bool
  categories : List ContentCategory
deriving DecidableEq, Repr

/-- Result payload of the navigate tool. -/
structure NavigateResult where
  success : Bool
  url : String
  title : Option String
  message : Option String
  error : Option String
deriving DecidableEq, Repr

/-- The navigate tool: goto the URL, then report the resolved URL and title;
a browser failure is caught and returned as a structured error. -/
def navigate (url : String) (browserGoto : Except String (String × String)) : NavigateResult :=
  match browserGoto with
  | .ok (currentUrl, title) =>
      { success := true, url := currentUrl, title := some title,
        message := some ("Navigated to " ++ currentUrl), error := none }
  | .error e =>
      { success := false, url := url, title := none, message := none, error := some e }

/-- JavaScript truthiness default: an absent or empty string falls back. -/
def jsOrDefault (s : Option String) (d : String) : String :=
  match s with
  | none => d
  | some v => if v = "" then d else v

/-- Default selector of the getPageContent tool. -/
def defaultArticleSelector : String := "article.markdown.book-article"

/-- Result payload of the getPageContent tool. -/
structure ContentToolResult where
  success : Bool
  data : Option PageContent
  error : Option String
deriving DecidableEq, Repr

/-- The getPageContent tool: evaluate the extraction in the page; a missing
article yields a structured selector error, a thrown browser error is caught
and returned. -/
def getPageContent (selector : Option String)
    (evalOutcome : Except String (Option PageContent)) : ContentToolResult :=
  let targetSelector := jsOrDefault selector defaultArticleSelector
  match evalOutcome with
  | .error e => { success := false, data := none, error := some e }
  | .ok none =>
      { success := false, data := none,
        error := some ("Could not find content with selector: " ++ targetSelector) }
  | .ok (some content) => { success := true, data := some content, error := none }

/-- Result payload of the click tool. -/
structure ClickResult where
  success : Bool
  message : Option String
  selector : Option String
  error : Option String
deriving DecidableEq, Repr

/-- The click tool: click the selector with a timeout; a failure (selector
not found, timeout) is caught and returned as a structured error. -/
def click (selector : String) (outcome : Except String Unit) : ClickResult :=
  match outcome with
  | .ok _ =>
      { success := true, message := some ("Clicked on " ++ selector),
        selector := none, error := none }
  | .error e =>
      { success := false, message := none, selector := some selector, error := some e }

/-- One sidebar version link. -/
structure VersionLink where
  version : String
  href : String
deriving DecidableEq, Repr

/-- Substring containment test (String.prototype.includes). -/
def strContains (s pat : String) : Bool :=
  decide (pat.toList <:+: s.toList)

/-- Result payload of the getVersionList tool. -/
structure VersionListResult where
  success : Bool
  versions : List VersionLink
  latestStable : Option VersionLink
  latestNightly : Option VersionLink
  error : Option String
deriving DecidableEq, Repr

/-- The getVersionList tool: read the sidebar links and pick the first
non-nightly and first nightly entries; a browser failure is caught. -/
def getVersionList (outcome : Except String (List VersionLink)) : VersionListResult :=
  match outcome with
  | .ok vs =>
      { success := true, versions := vs,
        latestStable := vs.find? (fun v => !(strContains v.version "nightly")),
        latestNightly := vs.find? (fun v => strContains v.version "nightly"),
        error := none }
  | .error e =>
      { success := false, versions := [], latestStable := none,
        latestNightly := none, error := some e }

/-- Result payload of the pageInfo tool. -/
structure PageInfoResult where
  success : Bool
  url : Option String
  title : Option String
  error : Option String
deriving DecidableEq, Repr

/-- The pageInfo tool: report the current URL and title; a browser failure is
caught and returned as a structured error. -/
def pageInfo (outcome : Except String (String × String)) : PageInfoResult :=
  match outcome with
  | .ok (url, title) =>
      { success := true, url := some url, title := some title, error := none }
  | .error e =>
      { success := false, url := none, title := none, error := some e }

/-! ## Domain key normalization (playbook-record.ts)

The recording session key starts from the target URL's hostname (produced by
the external URL parser) and normalizes it before building the scenario id. -/

/-- First normalization step of the hostname: remove a leading "www."
(the regex replace of a single anchored occurrence). -/
def stripWww (h : String) : String :=
  if "www.".toList.isPrefixOf h.toList then String.mk (h.toList.drop 4) else h

/-- Second normalization step: replace every "." with an underscore
(the global regex replace). -/
def dotsToUnderscores (h : String) : String :=
  String.mk (h.toList.map (fun c => if c = '.' then '_' else c))

/-- The domain key computed by playbook-record.ts from the URL's hostname. -/
def domainName (hostname : String) : String :=
  dotsToUnderscores (stripWww hostname)

/-- The normalization the claim describes: hostname with only the leading
"www." stripped.  Stated from the claim's words, for comparison with the
source's domainName. -/
def claimedDomainKey (hostname : String) : String :=
  stripWww hostname

/-! ## SDK client dispatch (src/unnamed/part_003)

searchActions accepts a bare query string or a full options object and issues
one API request with nullish defaults; getActionById accepts a bare numeric
id or an options object. -/

/-- Input options of searchActions. -/
structure SearchActionsInput where
  query : String
  type : Option String
  limit : Option Nat
  sourceIds : Option String
  minScore : Option Rat
deriving DecidableEq, Repr

/-- The request the underlying API client receives. -/
structure SearchRequest where
  query : String
  type : String
  limit : Nat
  sourceIds : Option String
  minScore : Option Rat
deriving DecidableEq, Repr

/-- The apiClient.searchActions call built from the resolved options, with
the nullish defaults of the source (type hybrid, limit 5). -/
def apiSearchRequest (o : SearchActionsInput) : SearchRequest :=
  { query := o.query
    type := o.type.getD "hybrid"
    limit := o.limit.getD 5
    sourceIds := o.sourceIds
    minScore := o.minScore }

/-- The overloaded argument of searchActions. -/
inductive SearchArg where
  | str (query : String)
  | opts (o : SearchActionsInput)
deriving Repr

/-- searchActionsFn: a bare string becomes an options object holding only the
query, then the API request is issued. -/
def searchActionsFn : SearchArg → SearchRequest
  | .str q =>
      apiSearchRequest
        { query := q, type := none, limit := none, sourceIds := none, minScore := none }
  | .opts o => apiSearchRequest o

/-- Input options of getActionById. -/
structure GetActionByIdInput where
  id : Nat
deriving DecidableEq, Repr

/-- The overloaded argument of getActionById. -/
inductive GetActionArg where
  | num (id : Nat)
  | opts (o : GetActionByIdInput)
deriving Repr

/-- getActionByIdFn: a bare number is the id, an options object carries it;
either way the id is passed to the API client. -/
def getActionByIdFn : GetActionArg → Nat
  | .num id => id
  | .opts o => o.id

/-! ## Releases parser (src/unnamed/part_001, parseFeatureItem)

parseFeatureItem matches the lazy regex group of "(merged ...)" in the item
text, removes the first occurrence of the matched substring from the title
and trims it, and maps a null-or-empty href to an absent url. -/

/-- Characters matched by the regex dot (everything but line terminators). -/
def dotChar (c : Char) : Bool :=
  c ≠ '\n' && c ≠ '\r' && c ≠ Char.ofNat 0x2028 && c ≠ Char.ofNat 0x2029

/-- Scan for the closing parenthesis of the lazy group: the group extends to
the first ")" and may contain only dot-matchable characters. -/
def scanClose : List Char → Option (List Char × List Char)
  | [] => none
  | c :: rest =>
    if c = ')' then some ([], rest)
    else if dotChar c then
      match scanClose rest with
      | some (g, r) => some (c :: g, r)
      | none => none
    else none

/-- Match the lazy group "(.+?)" right before a ")": at least one character,
then everything up to the first closing parenthesis. -/
def lazyGroup : List Char → Option (List Char × List Char)
  | [] => none
  | c :: rest =>
    if dotChar c then
      match scanClose rest with
      | some (g, r) => some (c :: g, r)
      | none => none
    else none

/-- Literal prefix of the merged marker. -/
def mergedMarker : List Char := "(merged ".toList

/-- Leftmost match of the regex "\(merged (.+?)\)": scan start positions left
to right, and at each one require the literal marker followed by the lazy
group and its closing parenthesis. -/
def findMerged : List Char → Option (List Char)
  | [] => none
  | c :: rest =>
    if mergedMarker.isPrefixOf (c :: rest) then
      match lazyGroup ((c :: rest).drop 8) with
      | some (g, _) => some g
      | none => findMerged rest
    else findMerged rest

/-- String.prototype.replace with a plain string pattern: remove the first
occurrence of the pattern. -/
def replaceFirstOcc (pat : List Char) : List Char → List Char
  | [] => []
  | c :: rest =>
    if pat.isPrefixOf (c :: rest) then (c :: rest).drop pat.length
    else c :: replaceFirstOcc pat rest

/-- Whitespace removed by String.prototype.trim. -/
def jsSpace (c : Char) : Bool :=
  c = ' ' || c = '\t' || c = '\n' || c = '\r' || c = Char.ofNat 11 ||
    c = Char.ofNat 12 || c = Char.ofNat 0xa0 || c = Char.ofNat 0x2028 || c = Char.ofNat 0x2029 ||
    c = Char.ofNat 0xfeff

/-- String.prototype.trim over the character list. -/
def trimChars (l : List Char) : List Char :=
  ((l.dropWhile jsSpace).reverse.dropWhile jsSpace).reverse

/-- Parsed feature of a release item. -/
structure RustFeature where
  title : String
  url : Option String
  mergedAgo : Option String
deriving DecidableEq, Repr

/-- JavaScript "x || undefined": a null or empty string becomes absent. -/
def jsStrOrNone : Option String → Option String
  | none => none
  | some s => if s = "" then none else some s

/-- parseFeatureItem from the releases parser. -/
def parseFeatureItem (item : ContentItem) : RustFeature :=
  match findMerged item.text.toList with
  | some g =>
      { title := String.mk (trimChars (replaceFirstOcc (mergedMarker ++ g ++ [')']) item.text.toList))
        url := jsStrOrNone item.href
        mergedAgo := some (String.mk g) }
  | none =>
      { title := item.text
        url := jsStrOrNone item.href
        mergedAgo := none }

/-! ## Support lemmas for the regex model and string normalization -/

theorem eq_append_drop_of_isPrefixOf {α : Type} [DecidableEq α] (p l : List α)
    (h : p.isPrefixOf l = true) : l = p ++ l.drop p.length := by
  obtain ⟨t, ht⟩ := List.isPrefixOf_iff_prefix.mp h
  subst ht
  rw [List.drop_left]

theorem scanClose_eq (l : List Char) :
    ∀ g r, scanClose l = some (g, r) → l = g ++ ')' :: r := by
  induction l with
  | nil => intro g r h; simp [scanClose] at h
  | cons c rest ih =>
    intro g r h
    unfold scanClose at h
    by_cases hc : c = ')'
    · rw [if_pos hc] at h
      rw [Option.some.injEq, Prod.mk.injEq] at h
      obtain ⟨hg, hr⟩ := h
      subst hg
      subst hr
      subst hc
      rfl
    · rw [if_neg hc] at h
      by_cases hd : dotChar c = true
      · rw [if_pos hd] at h
        cases hsc : scanClose rest with
        | none => rw [hsc] at h; exact absurd h (by simp)
        | some p =>
          obtain ⟨g', r'⟩ := p
          rw [hsc] at h
          rw [Option.some.injEq, Prod.mk.injEq] at h
          obtain ⟨hg, hr⟩ := h
          subst hg
          subst hr
          rw [ih g' r' hsc]
          rfl
      · rw [if_neg hd] at h
        exact absurd h (by simp)

theorem lazyGroup_eq (l : List Char) :
    ∀ g r, lazyGroup l = some (g, r) → l = g ++ ')' :: r := by
  cases l with
  | nil => intro g r h; simp [lazyGroup] at h
  | cons c rest =>
    intro g r h
    simp only [lazyGroup] at h
    by_cases hd : dotChar c = true
    · rw [if_pos hd] at h
      cases hsc : scanClose rest with
      | none => rw [hsc] at h; exact absurd h (by simp)
      | some p =>
        obtain ⟨g', r'⟩ := p
        rw [hsc] at h
        rw [Option.some.injEq, Prod.mk.injEq] at h
        obtain ⟨hg, hr⟩ := h
        subst hg
        subst hr
        rw [scanClose_eq rest g' r' hsc]
        rfl
    · rw [if_neg hd] at h
      exact absurd h (by simp)

theorem findMerged_exists (l : List Char) :
    ∀ g, findMerged l = some g →
      ∃ pre suf, l = pre ++ mergedMarker ++ g ++ ')' :: suf := by
  induction l with
  | nil => intro g h; simp [findMerged] at h
  | cons c rest ih =>
    intro g h
    unfold findMerged at h
    by_cases hp : mergedMarker.isPrefixOf (c :: rest) = true
    · rw [if_pos hp] at h
      cases hlg : lazyGroup ((c :: rest).drop 8) with
      | none =>
        rw [hlg] at h
        obtain ⟨pre, suf, heq⟩ := ih g (by simpa using h)
        exact ⟨c :: pre, suf, by simp [heq]⟩
      | some p =>
        obtain ⟨g', r'⟩ := p
        rw [hlg] at h
        rw [Option.some.injEq] at h
        subst h
        have hsplit := eq_append_drop_of_isPrefixOf mergedMarker (c :: rest) hp
        have hlen : mergedMarker.length = 8 := rfl
        rw [hlen] at hsplit
        have hgr := lazyGroup_eq _ _ _ hlg
        refine ⟨[], r', ?_⟩
        rw [List.nil_append, hsplit, hgr]
        simp [List.append_assoc]
    · rw [if_neg hp] at h
      obtain ⟨pre, suf, heq⟩ := ih g h
      exact ⟨c :: pre, suf, by simp [heq]⟩

/-! ## Claim theorems -/

/-- C1: for every sequence of register_element calls sharing one element_id
within one scope, the accumulator retains exactly one entry under that id
whose fields equal those of the last call; no duplicate entry is created.
(Accumulator modelled from the spec.) -/
theorem claim1_register_upsert_last (s0 : SessionState) (k : String)
    (calls : List RegisterArgs)
    (hall : ∀ a ∈ calls, a.element_id = k)
    (hne : calls ≠ [])
    (hcount : countKey k (scopeElements s0) ≤ 1) :
    countKey k (scopeElements (calls.foldl registerElement s0)) = 1 ∧
    lookupKey k (scopeElements (calls.foldl registerElement s0)) =
      (calls.getLast?).map RegisterArgs.toElement := by
  rw [scopeElements_fold_register, fold_upsert_map_key k calls hall]
  have hvne : calls.map RegisterArgs.toElement ≠ [] := by
    simpa using hne
  constructor
  · cases hm : calls.map RegisterArgs.toElement with
    | nil => exact absurd hm hvne
    | cons v tl =>
      simp only [List.foldl_cons]
      apply countKey_fold_upsert_one
      rw [countKey_upsert_self]
      have hcase : countKey k (scopeElements s0) = 0 ∨ countKey k (scopeElements s0) = 1 := by
        omega
      rcases hcase with h0 | h1
      · simp [h0]
      · simp [h1]
  · rw [← List.getLast?_map RegisterArgs.toElement calls]
    exact lookupKey_fold_upsert_last k _ hvne _

/-- Session state of the C1 witness: a fresh example.com session with the
example_main page context set. -/
def c1State : SessionState :=
  setPageContext (freshSession "example.com") "example_main" "Example main page"

/-- First registration of the C1 witness. -/
def c1Call1 : RegisterArgs :=
  { element_id := "header_logo", description := "Site logo", element_type := "link",
    allow_methods := ["click"], module := some Module.header, selector := "#logo" }

/-- Second registration of the C1 witness: same id, new description. -/
def c1Call2 : RegisterArgs :=
  { element_id := "header_logo", description := "Logo with a new description",
    element_type := "link", allow_methods := ["click"], module := some Module.header,
    selector := "#logo" }

/-- C1 witness: re-registering header_logo keeps one entry holding the last
call's fields. -/
theorem claim1_witness :
    countKey "header_logo" (scopeElements ([c1Call1, c1Call2].foldl registerElement c1State)) = 1 ∧
    lookupKey "header_logo" (scopeElements ([c1Call1, c1Call2].foldl registerElement c1State)) =
      (([c1Call1, c1Call2] : List RegisterArgs).getLast?).map RegisterArgs.toElement :=
  claim1_register_upsert_last c1State "header_logo" [c1Call1, c1Call2]
    (by decide) (by decide) (by decide)

/-- C2: every tool of the browser tool surface returns a structured result
tagged with a boolean success flag, carrying a result body on success and an
error string on failure; exceptions from the browser action are caught at
the tool boundary. -/
theorem claim2_tools_structured_results :
    (∀ (url : String) (o : Except String (String × String)),
      ((navigate url o).success = true ∧ (navigate url o).error = none ∧
        (navigate url o).title.isSome = true) ∨
      ((navigate url o).success = false ∧ (navigate url o).error.isSome = true)) ∧
    (∀ (sel : Option String) (o : Except String (Option PageContent)),
      ((getPageContent sel o).success = true ∧ (getPageContent sel o).error = none ∧
        (getPageContent sel o).data.isSome = true) ∨
      ((getPageContent sel o).success = false ∧ (getPageContent sel o).error.isSome = true)) ∧
    (∀ (sel : String) (o : Except String Unit),
      ((click sel o).success = true ∧ (click sel o).error = none ∧
        (click sel o).message.isSome = true) ∨
      ((click sel o).success = false ∧ (click sel o).error.isSome = true)) ∧
    (∀ (o : Except String (List VersionLink)),
      ((getVersionList o).success = true ∧ (getVersionList o).error = none) ∨
      ((getVersionList o).success = false ∧ (getVersionList o).error.isSome = true)) ∧
    (∀ (o : Except String (String × String)),
      ((pageInfo o).success = true ∧ (pageInfo o).error = none ∧
        (pageInfo o).url.isSome = true) ∨
      ((pageInfo o).success = false ∧ (pageInfo o).error.isSome = true)) := by
  refine ⟨?_, ?_, ?_, ?_, ?_⟩
  · intro url o
    cases o with
    | ok p => obtain ⟨u, t⟩ := p; left; simp [navigate]
    | error e => right; simp [navigate]
  · intro sel o
    cases o with
    | ok c =>
      cases c with
      | none => right; simp [getPageContent]
      | some content => left; simp [getPageContent]
    | error e => right; simp [getPageContent]
  · intro sel o
    cases o with
    | ok u => left; simp [click]
    | error e => right; simp [click]
  · intro o
    cases o with
    | ok vs => left; simp [getVersionList]
    | error e => right; simp [getVersionList]
  · intro o
    cases o with
    | ok p => obtain ⟨u, t⟩ := p; left; simp [pageInfo]
    | error e => right; simp [pageInfo]

/-- C3: a session configured with N maximum turns issues at most N
orchestrator turns, and on every termination path (completed, turn limit,
failed) the session evaluates to a result object.  (Orchestrator modelled
from the spec.) -/
theorem claim3_turn_limit (backend : Nat → ModelStep) (maxTurns : Nat)
    (savedPath : String) (duration : Nat) (init : SessionState) :
    (runSession backend maxTurns savedPath duration init).turns ≤ maxTurns ∧
    ((runSession backend maxTurns savedPath duration init).termination = TermKind.completed ∨
     (runSession backend maxTurns savedPath duration init).termination = TermKind.turnLimitReached ∨
     (runSession backend maxTurns savedPath duration init).termination = TermKind.failed) := by
  constructor
  · have h := runLoop_turns_le backend maxTurns init 0 0 0
    simpa [runSession] using h
  · cases h : (runLoop backend init 0 0 0 maxTurns).kind with
    | completed => left; simp [runSession, h]
    | turnLimitReached => right; left; simp [runSession, h]
    | failed => right; right; simp [runSession, h]

/-- C4: a register_element call arriving before any set_page_context does
not crash the session: it resolves to the sentinel "unclassified" page
scope, stores the element there, and subsequent events keep being processed
from the updated state.  (Accumulator modelled from the spec.) -/
theorem claim4_register_default_scope (d : String) (a : RegisterArgs)
    (rest : List ToolEvent) :
    (registerElement (freshSession d) a).caps.pages =
      [(unclassifiedPage,
        { page_type := unclassifiedPage, url_pattern := none,
          elements := [(a.element_id, a.toElement)] })] ∧
    lookupKey a.element_id (scopeElements (registerElement (freshSession d) a)) =
      some a.toElement ∧
    runEvents (freshSession d) (ToolEvent.register a :: rest) =
      runEvents (registerElement (freshSession d) a) rest := by
  refine ⟨rfl, ?_, rfl⟩
  rw [scopeElements_registerElement]
  exact lookupKey_upsert_self _ _ _

/-- C5: the stored element of a register_element call always carries a
module tag from the fixed taxonomy; a call omitting the module stores the
tag unknown, and the call still succeeds (the element is stored).
(Accumulator modelled from the spec.) -/
theorem claim5_module_defaults_unknown (s : SessionState) (a b : RegisterArgs)
    (h : a.module = none) :
    a.toElement.module = Module.unknown ∧
    b.toElement.module ∈ Module.taxonomy ∧
    lookupKey a.element_id (scopeElements (registerElement s a)) = some a.toElement := by
  refine ⟨?_, Module.mem_taxonomy _, ?_⟩
  · simp [RegisterArgs.toElement, h]
  · rw [scopeElements_registerElement]
    exact lookupKey_upsert_self _ _ _

/-- Registration with the module omitted, for the C5 witness. -/
def c5Args : RegisterArgs :=
  { element_id := "main_search_button", description := "Search button",
    element_type := "button", allow_methods := ["click"], module := none,
    selector := ".search-btn" }

/-- Registration with an explicit module, for the C5 witness. -/
def c5OtherArgs : RegisterArgs :=
  { element_id := "footer_contact_link", description := "Contact link",
    element_type := "link", allow_methods := ["click"], module := some Module.footer,
    selector := "#contact" }

/-- C5 witness: a module-less registration stores the unknown tag and
succeeds. -/
theorem claim5_witness :
    c5Args.toElement.module = Module.unknown ∧
    c5OtherArgs.toElement.module ∈ Module.taxonomy ∧
    lookupKey c5Args.element_id
      (scopeElements (registerElement (freshSession "example.com") c5Args)) =
      some c5Args.toElement :=
  claim5_module_defaults_unknown (freshSession "example.com") c5Args c5OtherArgs rfl

/-- C6: the result object of a session carries the success flag, saved
path, turns consumed, token usage counters (input, output, total = input +
output), wall-clock duration and the final capability snapshot of the loop
outcome, whichever way the loop terminated.  (Orchestrator modelled from the
spec.) -/
theorem claim6_result_object_fields (backend : Nat → ModelStep) (maxTurns : Nat)
    (savedPath : String) (duration : Nat) (init : SessionState) :
    (runSession backend maxTurns savedPath duration init).savedPath = savedPath ∧
    (runSession backend maxTurns savedPath duration init).totalDuration = duration ∧
    (runSession backend maxTurns savedPath duration init).turns =
      (runLoop backend init 0 0 0 maxTurns).turns ∧
    (runSession backend maxTurns savedPath duration init).tokens.input =
      (runLoop backend init 0 0 0 maxTurns).tokensIn ∧
    (runSession backend maxTurns savedPath duration init).tokens.output =
      (runLoop backend init 0 0 0 maxTurns).tokensOut ∧
    (runSession backend maxTurns savedPath duration init).tokens.total =
      (runSession backend maxTurns savedPath duration init).tokens.input +
        (runSession backend maxTurns savedPath duration init).tokens.output ∧
    (runSession backend maxTurns savedPath duration init).siteCapability =
      (runLoop backend init 0 0 0 maxTurns).final.caps ∧
    (runSession backend maxTurns savedPath duration init).success =
      decide ((runLoop backend init 0 0 0 maxTurns).kind = TermKind.completed) ∧
    (runSession backend maxTurns savedPath duration init).termination =
      (runLoop backend init 0 0 0 maxTurns).kind :=
  ⟨rfl, rfl, rfl, rfl, rfl, rfl, rfl, rfl, rfl⟩

/-- C7: persisting a SiteCapability and reloading it through the same
format yields an equal document: same domain, pages, elements, modules and
allow_methods.  (Persistence format modelled from the spec.) -/
theorem claim7_persist_reload_roundtrip (c : SiteCapability) :
    decodeSite (encodeSite c) = some c := by
  simp [encodeSite, decodeSite, lookupKey, getStr, docToStr, docToPages,
        docToElems_encodeElems,
        decodePairs_map decodePage encodePage decodePage_encodePage]

/-- C8 counterexample: the claim says the session's domain key is the
hostname with only a leading "www." stripped, but the source also replaces
every dot with an underscore, so at hostname www.example.com the code
produces example_com, not example.com. -/
theorem claim8_counterexample :
    domainName "www.example.com" ≠ claimedDomainKey "www.example.com" := by
  decide

/-- C8 (amended): the domain key is the hostname with a leading "www."
stripped and every "." replaced by "_"; www and non-www hostnames still
produce the same key. -/
theorem claim8_domain_key (h : String)
    (hw : "www.".toList.isPrefixOf h.toList = false) :
    domainName ("www." ++ h) = domainName h ∧
    domainName h = dotsToUnderscores h ∧
    domainName "www.example.com" = domainName "example.com" := by
  have hdata : ("www." ++ h).toList = "www.".toList ++ h.toList := by
    simp [String.toList]
  have hpre : "www.".toList.isPrefixOf ("www." ++ h).toList = true := by
    rw [hdata]
    exact List.isPrefixOf_iff_prefix.mpr ⟨h.toList, rfl⟩
  have hstrip1 : stripWww ("www." ++ h) = h := by
    unfold stripWww
    rw [if_pos hpre, hdata]
    have hdrop : ("www.".toList ++ h.toList).drop 4 = h.toList := by
      have h4 : ("www." : String).toList.length = 4 := rfl
      rw [← h4, List.drop_left]
    rw [hdrop]
    rfl
  have hstrip2 : stripWww h = h := by
    unfold stripWww
    rw [if_neg (by rw [hw]; exact Bool.false_ne_true)]
  refine ⟨?_, ?_, by decide⟩
  · unfold domainName
    rw [hstrip1, hstrip2]
  · unfold domainName
    rw [hstrip2]

/-- C8 witness: stripping www. of www.example.com and example.com yields the
same underscored key. -/
theorem claim8_witness :
    domainName ("www." ++ "example.com") = domainName "example.com" ∧
    domainName "example.com" = dotsToUnderscores "example.com" ∧
    domainName "www.example.com" = domainName "example.com" :=
  claim8_domain_key "example.com" (by decide)

/-- C9: searchActions with a bare query string issues the same API request
as with an options object holding only the query; an omitted type defaults
to hybrid and an omitted limit to 5; getActionById with a bare number issues
the same request as with an options object. -/
theorem claim9_sdk_dispatch :
    (∀ q : String,
      searchActionsFn (SearchArg.str q) =
        searchActionsFn (SearchArg.opts
          { query := q, type := none, limit := none, sourceIds := none, minScore := none })) ∧
    (∀ o : SearchActionsInput, o.type = none →
      (searchActionsFn (SearchArg.opts o)).type = "hybrid") ∧
    (∀ o : SearchActionsInput, o.limit = none →
      (searchActionsFn (SearchArg.opts o)).limit = 5) ∧
    (∀ n : Nat,
      getActionByIdFn (GetActionArg.num n) = getActionByIdFn (GetActionArg.opts { id := n })) := by
  refine ⟨fun q => rfl, ?_, ?_, fun n => rfl⟩
  · intro o ho
    simp [searchActionsFn, apiSearchRequest, ho]
  · intro o ho
    simp [searchActionsFn, apiSearchRequest, ho]

/-- C9 witness: the dispatch equalities and the hybrid/5 defaults at
concrete inputs. -/
theorem claim9_witness :
    searchActionsFn (SearchArg.str "airbnb search") =
      searchActionsFn (SearchArg.opts
        { query := "airbnb search", type := none, limit := none,
          sourceIds := none, minScore := none }) ∧
    (searchActionsFn (SearchArg.opts
      { query := "login", type := none, limit := some 10,
        sourceIds := none, minScore := none })).type = "hybrid" ∧
    (searchActionsFn (SearchArg.opts
      { query := "login", type := some "vector", limit := none,
        sourceIds := none, minScore := none })).limit = 5 ∧
    getActionByIdFn (GetActionArg.num 123) = getActionByIdFn (GetActionArg.opts { id := 123 }) :=
  ⟨claim9_sdk_dispatch.1 "airbnb search",
   claim9_sdk_dispatch.2.1 _ rfl,
   claim9_sdk_dispatch.2.2.1 _ rfl,
   claim9_sdk_dispatch.2.2.2 123⟩

/-- C10 counterexample: the claim says the url equals href whenever href is
non-null, but for the non-null empty href the JavaScript truthiness test
makes the parser return an absent url. -/
theorem claim10_counterexample :
    (parseFeatureItem { text := "Add new API", href := some "" }).url ≠ some "" := by
  decide

/-- C10 (amended): the url is href when href is non-null and non-empty and
absent otherwise; when the lazy regex match of "(merged X)" succeeds (such a
substring occurs in the text), mergedAgo is X and the title is the text with
the first occurrence of that substring removed and trimmed; otherwise
mergedAgo is absent and the title is the text unchanged. -/
theorem claim10_parse_feature (item : ContentItem) :
    ((item.href = none ∨ item.href = some "") → (parseFeatureItem item).url = none) ∧
    (∀ s : String, item.href = some s → s ≠ "" → (parseFeatureItem item).url = some s) ∧
    (∀ g : List Char, findMerged item.text.toList = some g →
      (∃ pre suf, item.text.toList = pre ++ mergedMarker ++ g ++ ')' :: suf) ∧
      (parseFeatureItem item).mergedAgo = some (String.mk g) ∧
      (parseFeatureItem item).title =
        String.mk (trimChars (replaceFirstOcc (mergedMarker ++ g ++ [')']) item.text.toList))) ∧
    (findMerged item.text.toList = none →
      (parseFeatureItem item).mergedAgo = none ∧
      (parseFeatureItem item).title = item.text) := by
  refine ⟨?_, ?_, ?_, ?_⟩
  · intro hh
    cases hf : findMerged item.text.data with
    | none => rcases hh with h | h <;> simp [parseFeatureItem, String.toList, hf, jsStrOrNone, h]
    | some g => rcases hh with h | h <;> simp [parseFeatureItem, String.toList, hf, jsStrOrNone, h]
  · intro s hs hne
    cases hf : findMerged item.text.data with
    | none => simp [parseFeatureItem, String.toList, hf, jsStrOrNone, hs, hne]
    | some g => simp [parseFeatureItem, String.toList, hf, jsStrOrNone, hs, hne]
  · intro g hg
    have hg' : findMerged item.text.data = some g := hg
    refine ⟨findMerged_exists _ g hg, ?_, ?_⟩ <;>
      simp [parseFeatureItem, String.toList, hg']
  · intro hg
    have hg' : findMerged item.text.data = none := hg
    constructor <;> simp [parseFeatureItem, String.toList, hg']

/-- Feature item of the C10 witness. -/
def c10Item : ContentItem :=
  { text := "Stabilize feature X (merged 3 days ago)",
    href := some "https://github.com/rust-lang/rust/pull/1" }

/-- C10 witness: a nightly item with a merged marker parses into url, the
merged-ago group, and the trimmed title. -/
theorem claim10_witness :
    (parseFeatureItem c10Item).url = some "https://github.com/rust-lang/rust/pull/1" ∧
    (parseFeatureItem c10Item).mergedAgo = some "3 days ago" ∧
    (parseFeatureItem c10Item).title = "Stabilize feature X" := by
  refine ⟨(claim10_parse_feature c10Item).2.1 _ rfl (by decide), ?_, ?_⟩
  · have hm := ((claim10_parse_feature c10Item).2.2.1 "3 days ago".toList (by decide)).2.1
    rw [hm]
    rfl
  · have ht := ((claim10_parse_feature c10Item).2.2.1 "3 days ago".toList (by decide)).2.2
    rw [ht]
    decide

end Actionbook
